import Mathlib

/-!
A verification development for the notification core of the Discord_Watch
repository.  Strings are modelled as lists of characters (one element per
Unicode code point, matching Python's len and slicing semantics), stateful
code as explicit state passing, and fallible code via an explicit result
type.  Each Python function of interest is translated to an executable
Lean definition, and the properties of the specification are settled as
theorems about those definitions.
-/

/-- Result of running a Python computation: a value, or a raised exception
identified by its class name. -/
inductive PyResult (α : Type) where
  | ok (a : α)
  | raised (e : String)
deriving DecidableEq, Repr

/-! ## String utilities (models of Python string primitives) -/

/-- Model of Python text: a list of Unicode code points. -/
abbrev PyStr := List Char

/-- The characters of a Lean string literal, used to write PyStr constants. -/
def pys (s : String) : PyStr := s.data

/-- leadsWith n h is true when n is a prefix of h (model of str.startswith). -/
def leadsWith : PyStr → PyStr → Bool
  | [], _ => true
  | _ :: _, [] => false
  | a :: as, b :: bs => a == b && leadsWith as bs

/-- hasSub n h is true when n occurs as a contiguous substring of h
(model of the Python expression n in h). -/
def hasSub (n : PyStr) : PyStr → Bool
  | [] => leadsWith n []
  | c :: t => leadsWith n (c :: t) || hasSub n t

/-- dropWhile never lengthens a list. -/
theorem dropWhile_len_le (p : Char → Bool) : ∀ l : PyStr, (l.dropWhile p).length ≤ l.length := by
  intro l
  induction l with
  | nil => simp [List.dropWhile]
  | cons c t ih =>
      simp only [List.dropWhile]
      split
      · exact Nat.le_trans ih (by simp)
      · simp

/-- ASCII lower-casing of a whole string (model of str.lower on the
inputs exercised here). -/
def lowerize (s : PyStr) : PyStr := s.map Char.toLower

/-- ASCII upper-casing of a whole string (model of str.upper). -/
def upperize (s : PyStr) : PyStr := s.map Char.toUpper

/-- Drop characters belonging to cs from the front of l. -/
def dropCharsLeft (cs : PyStr) (l : PyStr) : PyStr :=
  l.dropWhile (fun c => cs.contains c)

/-- Model of Python str.strip(cs): remove characters of the set cs from
both ends of the string. -/
def stripChars (cs : PyStr) (l : PyStr) : PyStr :=
  (dropCharsLeft cs ((dropCharsLeft cs l).reverse)).reverse

/-- The splitting loop of pySplit, structurally recursive on fuel so that
it reduces inside the kernel; callers pass the string length, which
suffices because every step consumes at least one character. -/
def pySplitGo : Nat → PyStr → List PyStr
  | 0, _ => []
  | _ + 1, [] => []
  | f + 1, c :: t =>
      if c.isWhitespace then pySplitGo f t
      else ((c :: t).takeWhile (fun x => !x.isWhitespace))
        :: pySplitGo f (t.dropWhile (fun x => !x.isWhitespace))

/-- Model of Python str.split() with no argument: split on runs of
whitespace, discarding empty pieces. -/
def pySplit (l : PyStr) : List PyStr := pySplitGo l.length l

/-- Model of Python sep.join(parts). -/
def joinSep (sep : PyStr) : List PyStr → PyStr
  | [] => []
  | [a] => a
  | a :: b :: rest => a ++ sep ++ joinSep sep (b :: rest)

/-- Association-list lookup, the model of a Python dict read (and of a
single-document database query). -/
def alookup {κ α : Type} [DecidableEq κ] (k : κ) : List (κ × α) → Option α
  | [] => none
  | (k', v) :: t => if k = k' then some v else alookup k t

/-- Remove every entry with the given key, the model of deleting a file at
a path or a database record by key. -/
def eraseKey {κ α : Type} [DecidableEq κ] (k : κ) (l : List (κ × α)) : List (κ × α) :=
  l.filter (fun e => !decide (e.1 = k))

/-- Replace the entry at the key, or append one, the model of overwriting a
file and of an upsert. -/
def upsertA {κ α : Type} [DecidableEq κ] (k : κ) (v : α) (l : List (κ × α)) : List (κ × α) :=
  if (alookup k l).isSome then l.map (fun e => if e.1 = k then (k, v) else e)
  else l ++ [(k, v)]

/-- Unfolding lemma for alookup on a cons cell. -/
theorem alookup_cons {κ α : Type} [DecidableEq κ] (k k' : κ) (v' : α) (t : List (κ × α)) :
    alookup k ((k', v') :: t) = if k = k' then some v' else alookup k t := rfl

/-- Replacing the value at an existing key makes it the lookup result. -/
theorem alookup_map_replace {κ α : Type} [DecidableEq κ] (k : κ) (v : α) :
    ∀ l : List (κ × α), (alookup k l).isSome = true →
      alookup k (l.map (fun e => if e.1 = k then (k, v) else e)) = some v := by
  intro l
  induction l with
  | nil => intro h; simp [alookup] at h
  | cons e t ih =>
      intro h
      obtain ⟨k', v'⟩ := e
      rw [alookup_cons] at h
      by_cases he : k = k'
      · subst he
        simp only [List.map_cons]
        rw [if_pos trivial, alookup_cons, if_pos rfl]
      · rw [if_neg he] at h
        simp only [List.map_cons]
        rw [show (if ((k', v') : κ × α).1 = k then (k, v) else (k', v')) = (k', v')
            from if_neg (fun hh => he hh.symm)]
        rw [alookup_cons, if_neg he]
        exact ih h

/-- Appending a fresh binding makes it the lookup result when the key was
absent. -/
theorem alookup_append_single {κ α : Type} [DecidableEq κ] (k : κ) (v : α) :
    ∀ l : List (κ × α), alookup k l = none → alookup k (l ++ [(k, v)]) = some v := by
  intro l
  induction l with
  | nil => intro _; rw [List.nil_append, alookup_cons, if_pos rfl]
  | cons e t ih =>
      intro h
      obtain ⟨k', v'⟩ := e
      rw [alookup_cons] at h
      by_cases he : k = k'
      · rw [if_pos he] at h
        exact absurd h (by simp)
      · rw [if_neg he] at h
        rw [List.cons_append, alookup_cons, if_neg he]
        exact ih h

/-- Looking up the key just upserted yields the new value. -/
theorem alookup_upsertA {κ α : Type} [DecidableEq κ] (k : κ) (v : α) (l : List (κ × α)) :
    alookup k (upsertA k v l) = some v := by
  unfold upsertA
  split
  next hsome => exact alookup_map_replace k v l hsome
  next hnone =>
    refine alookup_append_single k v l ?_
    cases hl : alookup k l with
    | none => rfl
    | some w => exact absurd (by rw [hl]; rfl) hnone

/-- Looking up an erased key yields nothing. -/
theorem alookup_eraseKey {κ α : Type} [DecidableEq κ] (k : κ) (l : List (κ × α)) :
    alookup k (eraseKey k l) = none := by
  induction l with
  | nil => rfl
  | cons e t ih =>
      obtain ⟨k', v'⟩ := e
      by_cases he : k' = k
      · have hp : ¬ ((!decide (((k', v') : κ × α).1 = k)) = true) := by simp [he]
        show alookup k (((k', v') :: t).filter (fun e => !decide (e.1 = k))) = none
        rw [List.filter_cons, if_neg hp]
        exact ih
      · have hp : (!decide (((k', v') : κ × α).1 = k)) = true := by simp [he]
        show alookup k (((k', v') :: t).filter (fun e => !decide (e.1 = k))) = none
        rw [List.filter_cons, if_pos hp]
        rw [alookup_cons, if_neg (fun hh => he hh.symm)]
        exact ih

/-! ## notifications/config.py — ActionType, ColorConfig, infer_action_type -/

/-- The non-ASCII literal (a mojibake rendering of a mute emoji) that appears
in the voice-leave and voice-mute keyword lists of infer_action_type. -/
def muteGlyph : PyStr := [Char.ofNat 0xf8ff, Char.ofNat 0xfc, Char.ofNat 0xee, Char.ofNat 0xe1]

/-- The non-ASCII literal in the warning keyword list of infer_action_type. -/
def warnGlyph : PyStr :=
  [Char.ofNat 0x201a, Char.ofNat 0xf6, Char.ofNat 0x2020,
   Char.ofNat 0xd4, Char.ofNat 0x220f, Char.ofNat 0xe8]

/-- The non-ASCII literal in the error keyword list of infer_action_type. -/
def errGlyph : PyStr := [Char.ofNat 0x201a, Char.ofNat 0xf9, Char.ofNat 0xe5]

/-- ColorConfig._DEFAULT_COLORS: the built-in default color table. -/
def defaultColors : List (PyStr × Int) :=
  [ (pys "voice_join", 0x00ff00),
    (pys "voice_leave", 0xff0000),
    (pys "voice_move", 0x0080ff),
    (pys "voice_mute", 0xffff00),
    (pys "voice_unmute", 0x00ff00),
    (pys "voice_deafen", 0xffa500),
    (pys "voice_undeafen", 0x00ff00),
    (pys "status_online", 0x00ff00),
    (pys "status_offline", 0x808080),
    (pys "status_idle", 0xffa500),
    (pys "status_dnd", 0xff0000),
    (pys "member_join", 0x32cd32),
    (pys "member_leave", 0xdc143c),
    (pys "member_update", 0x1e90ff),
    (pys "warning", 0xffff00),
    (pys "error", 0xff0000),
    (pys "admin", 0x800080),
    (pys "default", 0x00ff00) ]

/-- Hexadecimal digit test for the model of int(s, 16). -/
def isHexDigitCh (c : Char) : Bool :=
  c.isDigit || ('a' ≤ c && c ≤ 'f') || ('A' ≤ c && c ≤ 'F')

/-- Numeric value of a hexadecimal digit. -/
def hexDigitVal (c : Char) : Nat :=
  if c.isDigit then c.toNat - 48
  else if 'a' ≤ c && c ≤ 'f' then c.toNat - 87
  else c.toNat - 55

/-- The ASCII characters int() strips around a number: tab, newline,
vertical tab, form feed, carriage return and space (the C-level isspace
set; the 0x1c to 0x1f separators are not stripped and make int fail). -/
def isPySpaceAscii (c : Char) : Bool :=
  (9 ≤ c.toNat && c.toNat ≤ 13) || c.toNat = 32

/-- Strip the ASCII whitespace int() accepts from both ends. -/
def stripPySpaces (l : PyStr) : PyStr :=
  ((l.dropWhile isPySpaceAscii).reverse.dropWhile isPySpaceAscii).reverse

/-- The digit scanner of int(s, 16) after the first digit: further digits,
optionally separated by single underscores; a trailing, doubled or
non-digit-adjacent underscore fails. -/
def hexGo (acc : Nat) : PyStr → Option Nat
  | [] => some acc
  | '_' :: c :: t => if isHexDigitCh c then hexGo (acc * 16 + hexDigitVal c) t else none
  | ['_'] => none
  | c :: t => if isHexDigitCh c then hexGo (acc * 16 + hexDigitVal c) t else none

/-- The digit body of int(s, 16): must start with a hexadecimal digit. -/
def parseHexBody : PyStr → Option Nat
  | [] => none
  | c :: t => if isHexDigitCh c then hexGo (hexDigitVal c) t else none

/-- Model of the Python builtin int(s, 16) on ASCII input: optional
surrounding ASCII whitespace, an optional sign, an optional 0x or 0X prefix
followed by at most one underscore, then hexadecimal digits separated by
single underscores; anything else raises ValueError, modelled as none.
int() additionally accepts non-ASCII decimal digits and non-ASCII spaces;
those inputs are outside the model, which is why the universally
quantified fallback theorem below restricts non-empty override values to
ASCII. -/
def pyIntBase16 (l : PyStr) : Option Int :=
  let s1 := stripPySpaces l
  let signed : Int × PyStr :=
    match s1 with
    | '+' :: t => (1, t)
    | '-' :: t => (-1, t)
    | t => (1, t)
  let body : PyStr :=
    if leadsWith (pys "0x") signed.2 || leadsWith (pys "0X") signed.2 then
      match signed.2.drop 2 with
      | '_' :: t => t
      | t => t
    else signed.2
  match parseHexBody body with
  | some n => some (signed.1 * (n : Int))
  | none => none

/-- The falsy-action-type normalisation at the top of get_color: None or an
empty string becomes the default category. -/
def actionTypeOrDefault (actionType : Option PyStr) : PyStr :=
  match actionType with
  | none => pys "default"
  | some a => if a = [] then pys "default" else a

/-- The fallback read of get_color: the built-in table entry for the
category, or the table's entry for default when the category is absent
(the final 0 branch is unreachable because default is in the table). -/
def defaultColorOf (k : PyStr) : Int :=
  match alookup k defaultColors with
  | some c => c
  | none =>
      match alookup (pys "default") defaultColors with
      | some c => c
      | none => 0

/-- The hex conversion applied by get_color to an override value.  The
source strips with str.strip, which removes the characters of its argument
from both ends of the string as a character set, not as a prefix. -/
def envColorValue (v : PyStr) : Option Int :=
  pyIntBase16 (stripChars (pys "0x") (stripChars (pys "#") v))

/-- ColorConfig.get_color.  The process environment (os.getenv) is modelled
as an explicit association list from variable names to values.  An empty
override value is falsy in Python and is skipped like an absent one; a
value that fails hex conversion falls through to the default table. -/
def getColor (env : List (PyStr × PyStr)) (actionType : Option PyStr) : Int :=
  match alookup (pys "DISCORD_COLOR_" ++ upperize (actionTypeOrDefault actionType)) env with
  | some envColor =>
      if envColor ≠ [] then
        match envColorValue envColor with
        | some n => n
        | none => defaultColorOf (actionTypeOrDefault actionType)
      else defaultColorOf (actionTypeOrDefault actionType)
  | none => defaultColorOf (actionTypeOrDefault actionType)

/-- ColorConfig.validate_color: true iff the value is an integer in
Discord's valid color range 0 .. 0xffffff. -/
def validateColor (c : Int) : Bool := decide (0 ≤ c ∧ c ≤ 0xffffff)

/-- The rule chain of infer_action_type, applied to the already lower-cased
message (the local variable message_lower of the source): ordered keyword
matching, first matching rule wins, default fallback. -/
def inferRules (m : PyStr) : PyStr :=
  if (hasSub (pys "joined") m || hasSub (pys "entering") m || hasSub (pys "connecting") m)
      && hasSub (pys "channel") m then pys "voice_join"
  else if (hasSub (pys "left") m || hasSub (pys "leaving") m || hasSub (pys "disconnecting") m
      || hasSub muteGlyph m) && hasSub (pys "channel") m then pys "voice_leave"
  else if (hasSub (pys "moved") m || hasSub (pys "moved to") m || hasSub (pys "switched") m)
      && hasSub (pys "channel") m then pys "voice_move"
  else if hasSub (pys "muted") m || hasSub muteGlyph m then pys "voice_mute"
  else if hasSub (pys "unmuted") m then pys "voice_unmute"
  else if hasSub (pys "deafened") m then pys "voice_deafen"
  else if hasSub (pys "undeafened") m then pys "voice_undeafen"
  else if hasSub (pys "online") m then pys "status_online"
  else if hasSub (pys "offline") m then pys "status_offline"
  else if hasSub (pys "idle") m || hasSub (pys "away") m then pys "status_idle"
  else if hasSub (pys "dnd") m || hasSub (pys "disturb") m then pys "status_dnd"
  else if hasSub (pys "joined server") m || hasSub (pys "member joined") m then pys "member_join"
  else if hasSub (pys "left server") m || hasSub (pys "member left") m then pys "member_leave"
  else if hasSub (pys "warning") m || hasSub (pys "caution") m || hasSub (pys "alert") m
      || hasSub warnGlyph m then pys "warning"
  else if hasSub (pys "error") m || hasSub (pys "failed") m || hasSub (pys "problem") m
      || hasSub (pys "issue") m || hasSub errGlyph m then pys "error"
  else if hasSub (pys "admin") m || hasSub (pys "administrator") m
      || hasSub (pys "moderator") m || hasSub (pys "staff") m then pys "admin"
  else pys "default"

/-- infer_action_type: lower-case the message, then apply the rule chain. -/
def inferActionType (msg : PyStr) : PyStr := inferRules (lowerize msg)

/-! ## Substring lemmas -/

/-- leadsWith holds exactly when the haystack extends the needle. -/
theorem leadsWith_iff (n h : PyStr) : leadsWith n h = true ↔ ∃ t, h = n ++ t := by
  induction n generalizing h with
  | nil => simp [leadsWith]
  | cons a as ih =>
      cases h with
      | nil => simp [leadsWith]
      | cons b bs =>
          simp only [leadsWith, Bool.and_eq_true, beq_iff_eq, ih]
          constructor
          · rintro ⟨rfl, t, rfl⟩
            exact ⟨t, rfl⟩
          · rintro ⟨t, ht⟩
            rw [List.cons_append] at ht
            injection ht with h1 h2
            exact ⟨h1.symm, t, h2⟩

/-- hasSub holds exactly when the needle occurs inside the haystack. -/
theorem hasSub_iff (n h : PyStr) : hasSub n h = true ↔ ∃ p t, h = p ++ n ++ t := by
  induction h with
  | nil =>
      simp only [hasSub, leadsWith_iff]
      constructor
      · rintro ⟨t, ht⟩
        exact ⟨[], t, by simpa using ht⟩
      · rintro ⟨p, t, ht⟩
        refine ⟨t, ?_⟩
        rcases List.append_eq_nil.mp ht.symm with ⟨h1, h2⟩
        rcases List.append_eq_nil.mp h1 with ⟨rfl, rfl⟩
        simpa using ht
  | cons c h' ih =>
      simp only [hasSub, Bool.or_eq_true, leadsWith_iff, ih]
      constructor
      · rintro (⟨t, ht⟩ | ⟨p, t, ht⟩)
        · exact ⟨[], t, by simpa using ht⟩
        · exact ⟨c :: p, t, by simp [ht]⟩
      · rintro ⟨p, t, ht⟩
        cases p with
        | nil => exact Or.inl ⟨t, by simpa using ht⟩
        | cons d p' =>
            right
            rw [List.cons_append, List.cons_append] at ht
            injection ht with h1 h2
            exact ⟨p', t, h2⟩

/-- Substring occurrence is transitive. -/
theorem hasSub_trans {a b c : PyStr} (h1 : hasSub a b = true) (h2 : hasSub b c = true) :
    hasSub a c = true := by
  rcases (hasSub_iff a b).mp h1 with ⟨p, t, hb⟩
  rcases (hasSub_iff b c).mp h2 with ⟨q, r, hc⟩
  subst hc
  subst hb
  exact (hasSub_iff a _).mpr ⟨q ++ p, t ++ r, by simp⟩

/-- A needle embedded between two context strings is a substring. -/
theorem hasSub_embed (n p s : PyStr) : hasSub n (p ++ n ++ s) = true :=
  (hasSub_iff n _).mpr ⟨p, s, rfl⟩

/-- Substring occurrence survives enlarging the haystack on both sides. -/
theorem hasSub_extend {n h : PyStr} (p s : PyStr) (hh : hasSub n h = true) :
    hasSub n (p ++ h ++ s) = true := by
  rcases (hasSub_iff n h).mp hh with ⟨q, r, rfl⟩
  exact (hasSub_iff n _).mpr ⟨p ++ q, r ++ s, by simp⟩

/-! ## Claims about the action classifier and color policy -/

/-- The keyword-to-category correspondence of the voice rules of
infer_action_type: every keyword of a voice rule, paired with the category
that rule returns.  The mute glyph literal occurs in two rules; it is listed
with the first. -/
def voiceKeywordRule : List (PyStr × PyStr) :=
  [ (pys "joined", pys "voice_join"),
    (pys "entering", pys "voice_join"),
    (pys "connecting", pys "voice_join"),
    (pys "left", pys "voice_leave"),
    (pys "leaving", pys "voice_leave"),
    (pys "disconnecting", pys "voice_leave"),
    (muteGlyph, pys "voice_leave"),
    (pys "moved", pys "voice_move"),
    (pys "moved to", pys "voice_move"),
    (pys "switched", pys "voice_move"),
    (pys "muted", pys "voice_mute"),
    (pys "unmuted", pys "voice_unmute"),
    (pys "deafened", pys "voice_deafen"),
    (pys "undeafened", pys "voice_undeafen") ]

/-- The keywords of the voice rules of infer_action_type. -/
def voiceKeywords : List PyStr := voiceKeywordRule.map Prod.fst

/-- The seven voice categories. -/
def voiceCategories : List PyStr :=
  [ pys "voice_join", pys "voice_leave", pys "voice_move", pys "voice_mute",
    pys "voice_unmute", pys "voice_deafen", pys "voice_undeafen" ]

/-- If any of the seven voice-rule conditions holds, the rule chain answers
with a voice category: the voice rules are tried before every other rule. -/
theorem inferRules_voice_aux (m : PyStr)
    (h : (((hasSub (pys "joined") m || hasSub (pys "entering") m
            || hasSub (pys "connecting") m) && hasSub (pys "channel") m)
      || ((hasSub (pys "left") m || hasSub (pys "leaving") m
            || hasSub (pys "disconnecting") m || hasSub muteGlyph m)
           && hasSub (pys "channel") m)
      || ((hasSub (pys "moved") m || hasSub (pys "moved to") m
            || hasSub (pys "switched") m) && hasSub (pys "channel") m)
      || (hasSub (pys "muted") m || hasSub muteGlyph m)
      || hasSub (pys "unmuted") m
      || hasSub (pys "deafened") m
      || hasSub (pys "undeafened") m) = true) :
    inferRules m ∈ voiceCategories := by
  delta inferRules
  by_cases h1 : ((hasSub (pys "joined") m || hasSub (pys "entering") m
      || hasSub (pys "connecting") m) && hasSub (pys "channel") m) = true
  · rw [if_pos h1]; decide
  rw [if_neg h1]
  by_cases h2 : ((hasSub (pys "left") m || hasSub (pys "leaving") m
      || hasSub (pys "disconnecting") m || hasSub muteGlyph m)
      && hasSub (pys "channel") m) = true
  · rw [if_pos h2]; decide
  rw [if_neg h2]
  by_cases h3 : ((hasSub (pys "moved") m || hasSub (pys "moved to") m
      || hasSub (pys "switched") m) && hasSub (pys "channel") m) = true
  · rw [if_pos h3]; decide
  rw [if_neg h3]
  by_cases h4 : (hasSub (pys "muted") m || hasSub muteGlyph m) = true
  · rw [if_pos h4]; decide
  rw [if_neg h4]
  by_cases h5 : hasSub (pys "unmuted") m = true
  · rw [if_pos h5]; decide
  rw [if_neg h5]
  by_cases h6 : hasSub (pys "deafened") m = true
  · rw [if_pos h6]; decide
  rw [if_neg h6]
  by_cases h7 : hasSub (pys "undeafened") m = true
  · rw [if_pos h7]; decide
  exfalso
  simp only [Bool.or_eq_true] at h
  rcases h with ((((((hc | hc) | hc) | hc) | hc) | hc) | hc)
  exacts [h1 hc, h2 hc, h3 hc, h4 (by simpa using hc), h5 hc, h6 hc, h7 hc]

/-- C4 (amended): any message that contains, after lower-casing, both a
voice-rule keyword and the word channel is classified into one of the seven
voice categories, never a status, membership, warning, error, admin or
default category.  (The stronger original claim, that the category always
corresponds to the matched keyword, fails; see the counterexample.) -/
theorem C4_voice_message_gets_voice_category (msg k : PyStr)
    (hk : k ∈ voiceKeywords)
    (hs : hasSub k (lowerize msg) = true)
    (hch : hasSub (pys "channel") (lowerize msg) = true) :
    inferActionType msg ∈ voiceCategories := by
  show inferRules (lowerize msg) ∈ voiceCategories
  simp only [voiceKeywords, voiceKeywordRule, List.map_cons, List.map_nil,
    List.mem_cons, List.not_mem_nil, or_false] at hk
  rcases hk with rfl | rfl | rfl | rfl | rfl | rfl | rfl | rfl | rfl | rfl | rfl | rfl | rfl | rfl
  · exact inferRules_voice_aux _ (by simp [hs, hch])
  · exact inferRules_voice_aux _ (by simp [hs, hch])
  · exact inferRules_voice_aux _ (by simp [hs, hch])
  · exact inferRules_voice_aux _ (by simp [hs, hch])
  · exact inferRules_voice_aux _ (by simp [hs, hch])
  · exact inferRules_voice_aux _ (by simp [hs, hch])
  · exact inferRules_voice_aux _ (by simp [hs, hch])
  · exact inferRules_voice_aux _ (by simp [hs, hch])
  · have hs' : hasSub (pys "moved") (lowerize msg) = true :=
      hasSub_trans (by decide) hs
    exact inferRules_voice_aux _ (by simp [hs', hch])
  · exact inferRules_voice_aux _ (by simp [hs, hch])
  · exact inferRules_voice_aux _ (by simp [hs, hch])
  · have hs' : hasSub (pys "muted") (lowerize msg) = true :=
      hasSub_trans (by decide) hs
    exact inferRules_voice_aux _ (by simp [hs', hch])
  · exact inferRules_voice_aux _ (by simp [hs, hch])
  · have hs' : hasSub (pys "deafened") (lowerize msg) = true :=
      hasSub_trans (by decide) hs
    exact inferRules_voice_aux _ (by simp [hs', hch])

/-- Witness for C4: a concrete message with the switched keyword and the
word channel is classified as a voice category. -/
theorem C4_voice_message_gets_voice_category_witness :
    pys "switched" ∈ voiceKeywords
    ∧ hasSub (pys "switched") (lowerize (pys "Bob switched Channel")) = true
    ∧ hasSub (pys "channel") (lowerize (pys "Bob switched Channel")) = true
    ∧ inferActionType (pys "Bob switched Channel") ∈ voiceCategories :=
  ⟨by decide, by decide, by decide,
    C4_voice_message_gets_voice_category (pys "Bob switched Channel") (pys "switched")
      (by decide) (by decide) (by decide)⟩

/-- C4 counterexample: the message contains the unmuted keyword (whose voice
rule returns voice_unmute) together with the word channel, yet the
classifier returns voice_mute, because the earlier mute rule matches the
substring muted inside unmuted.  So the returned category is a voice
category but not the one corresponding to the contained keyword. -/
theorem C4_counterexample :
    (pys "unmuted", pys "voice_unmute") ∈ voiceKeywordRule
    ∧ hasSub (pys "unmuted") (lowerize (pys "User unmuted in the channel")) = true
    ∧ hasSub (pys "channel") (lowerize (pys "User unmuted in the channel")) = true
    ∧ inferActionType (pys "User unmuted in the channel") = pys "voice_mute"
    ∧ pys "voice_mute" ≠ pys "voice_unmute" := by
  refine ⟨by decide, by decide, by decide, by decide, by decide⟩

/-- C2: the override is read with str.strip, which strips character sets,
not prefixes.  With the documented example value 00ff00 for voice_join the
code returns 0xff (the leading and trailing zeros are eaten together with
the intended 0x prefix handling), not the documented 0x00ff00; an invalid
hex override such as 00GHIJ falls back to the built-in default without
raising. -/
theorem C2_override_strip_bug :
    getColor [(pys "DISCORD_COLOR_VOICE_JOIN", pys "00ff00")] (some (pys "voice_join")) = 0xff
    ∧ (0xff : Int) ≠ 0x00ff00
    ∧ getColor [(pys "DISCORD_COLOR_VOICE_JOIN", pys "00GHIJ")] (some (pys "voice_join")) = 0x00ff00 := by
  refine ⟨by decide, by decide, by decide⟩

/-- Whether a character is ASCII. -/
def isAsciiCh (c : Char) : Bool := c.toNat < 128

/-- True when the DISCORD_COLOR_DEFAULT entry of the override table is
absent, empty, or an ASCII string that fails hex conversion after the strip
step — exactly the ASCII situations in which the override cannot take
effect for the default category.  The ASCII restriction on the non-empty
case keeps the predicate within the domain where the int(s, 16) model is
exact. -/
def defaultOverrideIneffective (env : List (PyStr × PyStr)) : Bool :=
  match alookup (pys "DISCORD_COLOR_DEFAULT") env with
  | none => true
  | some v => v == [] || (v.all isAsciiCh && (envColorValue v).isNone)

/-- C8 (amended): unmapped text is classified default, and the resolved
color of the default category is the built-in 0x00ff00, inside the valid
range, whenever the external override for default is absent or malformed.
(The unconditional original claim fails: a parseable oversized override is
returned as is; see the counterexample.) -/
theorem C8_default_classification_and_color :
    inferActionType (pys "completely unrelated text") = pys "default"
    ∧ ∀ env, defaultOverrideIneffective env = true →
        getColor env (some (pys "default")) = 0x00ff00
        ∧ validateColor (getColor env (some (pys "default"))) = true := by
  constructor
  · decide
  · intro env h
    unfold defaultOverrideIneffective at h
    have hkey : pys "DISCORD_COLOR_" ++ upperize (actionTypeOrDefault (some (pys "default")))
        = pys "DISCORD_COLOR_DEFAULT" := by decide
    unfold getColor
    rw [hkey]
    cases hl : alookup (pys "DISCORD_COLOR_DEFAULT") env with
    | none =>
        exact ⟨by decide, by decide⟩
    | some v =>
        rw [hl] at h
        simp only [Bool.or_eq_true, Bool.and_eq_true, beq_iff_eq,
          Option.isNone_iff_eq_none] at h
        dsimp only []
        by_cases hve : v = []
        · subst hve
          exact ⟨by decide, by decide⟩
        · rcases h with h | ⟨_, h⟩
          · exact absurd h hve
          · rw [if_pos hve, h]
            exact ⟨by decide, by decide⟩

/-- Witness for C8: with a malformed default override the resolved color is
the built-in default. -/
theorem C8_default_classification_and_color_witness :
    defaultOverrideIneffective [(pys "DISCORD_COLOR_DEFAULT", pys "00GHIJ")] = true
    ∧ getColor [(pys "DISCORD_COLOR_DEFAULT", pys "00GHIJ")] (some (pys "default")) = 0x00ff00 :=
  ⟨by decide,
    (C8_default_classification_and_color.2 [(pys "DISCORD_COLOR_DEFAULT", pys "00GHIJ")]
      (by decide)).1⟩

/-- C8 counterexample: a parseable eight-digit override for the default
category survives unvalidated, so resolve(default) leaves the 24-bit
range. -/
theorem C8_counterexample :
    getColor [(pys "DISCORD_COLOR_DEFAULT", pys "ffffffff")] (some (pys "default")) = 4294967295
    ∧ validateColor 4294967295 = false := by
  refine ⟨by decide, by decide⟩

/-! ## notifications/base.py — UserContext -/

/-- A datetime value as used by the formatting code: the components read by
strftime.  Python datetime objects are always truthy. -/
structure PyDateTime where
  year : Nat
  month : Nat
  day : Nat
  hour : Nat
  minute : Nat
deriving DecidableEq, Repr

/-- UserContext dataclass: user profile snapshot for enhanced notifications.
Optional string fields distinguish None (none) from an empty string
(some nil), since Python treats both as falsy but interpolates them
differently. -/
structure UserContext where
  user_id : PyStr
  username : PyStr
  display_name : Option PyStr := none
  avatar_url : Option PyStr := none
  joined_at : Option PyDateTime := none
  nickname : Option PyStr := none
  roles : Option (List PyStr) := none
deriving DecidableEq, Repr

/-- Python truthiness of an optional string: present and non-empty. -/
def truthyStr (s : Option PyStr) : Bool :=
  match s with
  | none => false
  | some v => v != []

/-- UserContext.get_display_name: nickname or display_name or username or
a synthesized User id string, first truthy value wins. -/
def getDisplayName (c : UserContext) : PyStr :=
  let fallbackU : PyStr :=
    if c.username ≠ [] then c.username else pys "User " ++ c.user_id
  let fallbackD : PyStr :=
    match c.display_name with
    | some d => if d ≠ [] then d else fallbackU
    | none => fallbackU
  match c.nickname with
  | some n => if n ≠ [] then n else fallbackD
  | none => fallbackD

/-- Left-pad a decimal rendering with zeros, as strftime field formatting
does. -/
def padZeros (w : Nat) (n : Nat) : PyStr :=
  let d := (toString n).data
  List.replicate (w - d.length) '0' ++ d

/-- UserContext.get_joined_date_formatted: strftime Y-m-d H:M UTC, or the
Unknown fallback when no joined_at is set. -/
def getJoinedDateFormatted (c : UserContext) : PyStr :=
  match c.joined_at with
  | some d =>
      padZeros 4 d.year ++ pys "-" ++ padZeros 2 d.month ++ pys "-" ++ padZeros 2 d.day
        ++ pys " " ++ padZeros 2 d.hour ++ pys ":" ++ padZeros 2 d.minute ++ pys " UTC"
  | none => pys "Unknown"

/-! ## notifications/discord_provider.py — rich-card renderer -/

/-- create_voice_channel_url: the deep-link format. -/
def createVoiceChannelUrl (serverId channelId : Int) : PyStr :=
  pys "https://discord.com/channels/" ++ (toString serverId).data ++ pys "/"
    ++ (toString channelId).data

/-- The observable content of a discord.Embed as built by the provider. -/
structure DiscordEmbed where
  description : PyStr
  color : Int
  timestamp : Int
  authorName : Option PyStr := none
  authorIconUrl : Option PyStr := none
  thumbnailUrl : Option PyStr := none
  fields : List (PyStr × PyStr × Bool) := []
deriving DecidableEq, Repr

/-- Python truthiness of an optional integer id: present and non-zero. -/
def truthyInt (i : Option Int) : Bool :=
  match i with
  | none => false
  | some v => v != 0

/-- DiscordNotificationProvider._create_enhanced_embed.  The color override
table and the capture-time timestamp are explicit parameters. -/
def createEnhancedEmbed (env : List (PyStr × PyStr)) (now : Int) (msg : PyStr)
    (uc : Option UserContext) (actionType : Option PyStr)
    (voiceChannelId serverId : Option Int) : DiscordEmbed :=
  let color0 : Int :=
    match actionType with
    | some a => if a = [] then getColor env (some (inferActionType msg)) else getColor env (some a)
    | none => getColor env (some (inferActionType msg))
  let color : Int := if validateColor color0 then color0 else getColor env (some (pys "default"))
  let base : DiscordEmbed := { description := msg, color := color, timestamp := now }
  let withUser : DiscordEmbed :=
    match uc with
    | none => base
    | some c =>
        let dn := getDisplayName c
        let authorName :=
          if c.username ≠ [] ∧ c.username ≠ dn then dn ++ pys " (" ++ c.username ++ pys ")"
          else dn
        let base1 :=
          if truthyStr c.avatar_url then
            { base with authorName := some authorName, authorIconUrl := c.avatar_url,
                        thumbnailUrl := c.avatar_url }
          else { base with authorName := some authorName }
        let fields1 := [(pys "User ID", pys "`" ++ c.user_id ++ pys "`", true)]
        let fields2 :=
          match c.joined_at with
          | some _ => fields1 ++ [(pys "Member Since", getJoinedDateFormatted c, true)]
          | none => fields1
        let fields3 :=
          match c.roles with
          | some rs =>
              if rs.length > 0 then
                let rolesText :=
                  joinSep (pys ", ") (rs.take 5)
                    ++ (if rs.length > 5 then
                          pys " (+" ++ (toString (rs.length - 5)).data ++ pys " more)"
                        else [])
                fields2 ++ [(pys "Roles", rolesText, false)]
              else fields2
          | none => fields2
        { base1 with fields := fields3 }
  if truthyInt voiceChannelId && truthyInt serverId then
    match voiceChannelId, serverId with
    | some v, some sid =>
        { withUser with
            fields := withUser.fields
              ++ [(pys "🎙️ Voice Channel",
                   pys "[Join Voice Channel](" ++ createVoiceChannelUrl sid v ++ pys ")",
                   false)] }
    | _, _ => withUser
  else if truthyInt voiceChannelId && !truthyInt serverId then
    match voiceChannelId with
    | some v =>
        { withUser with
            fields := withUser.fields
              ++ [(pys "🎙️ Voice Channel ID", pys "`" ++ (toString v).data ++ pys "`", false)] }
    | none => withUser
  else withUser

/-- The two shapes _format_for_discord can return: a single rich card, or an
ordered list of plain text chunks with every structured field dropped. -/
inductive DiscordPayload where
  | embedded (e : DiscordEmbed)
  | chunks (cs : List PyStr)
deriving DecidableEq, Repr

/-- The chunking loop shared by both providers: take successive slices of at
most lim characters until the message is exhausted.  Fuel-based recursion;
the callers always supply fuel of at least the message length. -/
def splitChunksGo (lim : Nat) : Nat → PyStr → List PyStr
  | 0, _ => []
  | _ + 1, [] => []
  | f + 1, c :: t => (c :: t).take lim :: splitChunksGo lim f ((c :: t).drop lim)

/-- The chunking loop of the providers, with fuel set to the input length. -/
def splitChunks (lim : Nat) (l : PyStr) : List PyStr :=
  splitChunksGo lim l.length l

/-- DiscordNotificationProvider._format_for_discord: a single embed when the
message is within the 4000-unit embed ceiling, otherwise the raw message cut
into plain chunks of at most 2000 units. -/
def formatForDiscord (env : List (PyStr × PyStr)) (now : Int) (msg : PyStr)
    (uc : Option UserContext) (actionType : Option PyStr)
    (voiceChannelId serverId : Option Int) : DiscordPayload :=
  if msg.length ≤ 4000 then
    .embedded (createEnhancedEmbed env now msg uc actionType voiceChannelId serverId)
  else
    .chunks (splitChunks 2000 msg)

/-- With positive chunk size and enough fuel, concatenating the chunks gives
back the original string. -/
theorem splitChunksGo_join (lim : Nat) (hlim : 0 < lim) :
    ∀ (f : Nat) (l : PyStr), l.length ≤ f → (splitChunksGo lim f l).flatten = l := by
  intro f
  induction f with
  | zero =>
      intro l hl
      have : l = [] := List.length_eq_zero.mp (Nat.le_zero.mp hl)
      subst this
      rfl
  | succ f ih =>
      intro l hl
      cases l with
      | nil => rfl
      | cons c t =>
          have hdrop : ((c :: t).drop lim).length ≤ f := by
            simp only [List.length_drop, List.length_cons]
            simp only [List.length_cons] at hl
            omega
          simp only [splitChunksGo, List.flatten_cons, ih _ hdrop, List.take_append_drop]

/-- Every chunk produced by the chunking loop is at most lim long. -/
theorem splitChunksGo_chunk_le (lim : Nat) :
    ∀ (f : Nat) (l : PyStr) (c : PyStr), c ∈ splitChunksGo lim f l → c.length ≤ lim := by
  intro f
  induction f with
  | zero =>
      intro l c hc
      simp [splitChunksGo] at hc
  | succ f ih =>
      intro l c hc
      cases l with
      | nil => simp [splitChunksGo] at hc
      | cons x t =>
          simp only [splitChunksGo, List.mem_cons] at hc
          rcases hc with rfl | hc
          · rw [List.length_take]
            exact Nat.min_le_left _ _
          · exact ih _ _ hc

/-- C5: when the message exceeds the 4000-unit embed ceiling the rich-card
renderer abandons the card and returns plain chunks of at most 2000 units
each whose in-order concatenation is the original message, with every
structured field dropped (the chunks variant carries only text); at or under
the ceiling it returns a single card. -/
theorem C5_discord_size_branching (env : List (PyStr × PyStr)) (now : Int) (msg : PyStr)
    (uc : Option UserContext) (actionType : Option PyStr)
    (voiceChannelId serverId : Option Int) :
    (msg.length ≤ 4000 →
      formatForDiscord env now msg uc actionType voiceChannelId serverId
        = .embedded (createEnhancedEmbed env now msg uc actionType voiceChannelId serverId))
    ∧ (4000 < msg.length →
      formatForDiscord env now msg uc actionType voiceChannelId serverId
          = .chunks (splitChunks 2000 msg)
        ∧ (∀ c ∈ splitChunks 2000 msg, c.length ≤ 2000)
        ∧ (splitChunks 2000 msg).flatten = msg) := by
  constructor
  · intro hle
    unfold formatForDiscord
    rw [if_pos hle]
  · intro hgt
    refine ⟨?_, ?_, ?_⟩
    · unfold formatForDiscord
      rw [if_neg (by omega)]
    · intro c hc
      exact splitChunksGo_chunk_le 2000 _ _ c hc
    · exact splitChunksGo_join 2000 (by omega) _ msg (Nat.le_refl _)

/-- Witness for C5: a 4001-character message goes down the chunked path and
reassembles, and a short message yields a single card. -/
theorem C5_discord_size_branching_witness :
    (4000 < (List.replicate 4001 'x' : PyStr).length
      ∧ formatForDiscord [] 0 (List.replicate 4001 'x') none none none none
          = .chunks (splitChunks 2000 (List.replicate 4001 'x'))
      ∧ (∀ c ∈ splitChunks 2000 (List.replicate 4001 'x' : PyStr), c.length ≤ 2000)
      ∧ (splitChunks 2000 (List.replicate 4001 'x' : PyStr)).flatten = List.replicate 4001 'x')
    ∧ ((pys "hi").length ≤ 4000
      ∧ formatForDiscord [] 0 (pys "hi") none none none none
          = .embedded (createEnhancedEmbed [] 0 (pys "hi") none none none none)) :=
  ⟨⟨by rw [List.length_replicate]; omega,
    (C5_discord_size_branching [] 0 (List.replicate 4001 'x') none none none none).2
      (by rw [List.length_replicate]; omega)⟩,
   ⟨by decide,
    (C5_discord_size_branching [] 0 (pys "hi") none none none none).1 (by decide)⟩⟩

/-! ## notifications/telegram_provider.py — styled-text renderer -/

/-- Model of html.escape(s, quote=False): replace ampersand, less-than and
greater-than by their entities (the ampersand pass runs first in the
source, which is equivalent to this single pointwise pass). -/
def pyHtmlEscape : PyStr → PyStr
  | [] => []
  | c :: t =>
      (if c = '&' then pys "&amp;"
       else if c = '<' then pys "&lt;"
       else if c = '>' then pys "&gt;"
       else [c]) ++ pyHtmlEscape t

/-- The display-name line of the Telegram user-info section: bold display
name, with the at-username appended when it is truthy and differs. -/
def namePart (c : UserContext) : PyStr :=
  if c.username ≠ [] ∧ c.username ≠ getDisplayName c then
    pys "<b>👤 " ++ getDisplayName c ++ (pys "</b> (@" ++ c.username ++ pys ")")
  else
    pys "<b>👤 " ++ getDisplayName c ++ pys "</b>"

/-- The user-id line of the Telegram user-info section. -/
def idPart (c : UserContext) : PyStr :=
  pys "<code>User ID: " ++ c.user_id ++ pys "</code>"

/-- The joined-date line, present when joined_at is set. -/
def joinedParts (c : UserContext) : List PyStr :=
  match c.joined_at with
  | some _ => [pys "📅 Joined: " ++ getJoinedDateFormatted c]
  | none => []

/-- The role list text: first three roles comma-joined, with a more-count
suffix beyond three. -/
def rolesTextTelegram (rs : List PyStr) : PyStr :=
  joinSep (pys ", ") (rs.take 3)
    ++ (if 3 < rs.length then pys " (+" ++ (toString (rs.length - 3)).data ++ pys " more)"
        else [])

/-- The roles line, present when the roles list is truthy (non-None and
non-empty). -/
def rolesParts (c : UserContext) : List PyStr :=
  match c.roles with
  | some rs => if 0 < rs.length then [pys "🏷️ Roles: " ++ rolesTextTelegram rs] else []
  | none => []

/-- The profile-picture note, present when an avatar URL is truthy and the
caller asked for it. -/
def avatarParts (c : UserContext) (includeProfilePicture : Bool) : List PyStr :=
  if truthyStr c.avatar_url && includeProfilePicture then
    [pys "🖼️ Profile picture available"]
  else []

/-- The user_info_parts list of _enhance_telegram_message, in source
order. -/
def userInfoParts (c : UserContext) (includeProfilePicture : Bool) : List PyStr :=
  namePart c :: idPart c :: (joinedParts c ++ rolesParts c ++ avatarParts c includeProfilePicture)

/-- _enhance_telegram_message: newline-join the user-info lines and prepend
them to the (already escaped) message, separated by a blank line; no-op
without a user context.  Profile fields are interpolated as they are, with
no escaping. -/
def enhanceTelegramMessage (message : PyStr) (uc : Option UserContext)
    (includeProfilePicture : Bool) : PyStr :=
  match uc with
  | none => message
  | some c =>
      joinSep (pys "\n") (userInfoParts c includeProfilePicture) ++ pys "\n\n" ++ message

/-- is_supported_tag of _sanitize_telegram_html: lower-case, strip the
angle-bracket and slash characters from both ends, and compare against the
supported set. -/
def isSupportedTag (tag : PyStr) : Bool :=
  let clean := stripChars (pys "<>/") (lowerize tag)
  clean == pys "b" || clean == pys "i" || clean == pys "u" || clean == pys "s"
    || clean == pys "code" || clean == pys "pre" || clean == pys "a"

/-- Split a string at its first greater-than sign: the characters before it
and the characters after it.  This is how the regex group of both
sanitizer patterns is forced: the group cannot contain a greater-than sign
and must be followed by one. -/
def splitAtGt : PyStr → Option (PyStr × PyStr)
  | [] => none
  | c :: t =>
      if c = '>' then some ([], t)
      else (splitAtGt t).map (fun p => (c :: p.1, p.2))

/-- Case-insensitive prefix test (the sanitizer regex runs with
re.IGNORECASE, which also makes the backreference case-insensitive). -/
def ciLeads : PyStr → PyStr → Bool
  | [], _ => true
  | _ :: _, [] => false
  | a :: as, b :: bs => (a.toLower == b.toLower) && ciLeads as bs

/-- Find the earliest case-insensitive occurrence of close in the string:
returns the characters before it (the lazy group-2 content), the actual
matched characters of the closing token, and the remainder after it. -/
def findClose (close : PyStr) : PyStr → Option (PyStr × PyStr × PyStr)
  | [] => if ciLeads close [] then some ([], [], []) else none
  | c :: t =>
      if ciLeads close (c :: t) then
        some ([], (c :: t).take close.length, (c :: t).drop close.length)
      else (findClose close t).map (fun r => (c :: r.1, r.2.1, r.2.2))

/-- First substitution pass of _sanitize_telegram_html: the pattern matching
a paired tag with a backreference, scanned left to right; a matched pair
with unsupported name is replaced by its inner content, a supported pair is
kept verbatim, and scanning resumes after each match.  Fuel-based; callers
supply the string length, which suffices because every step consumes at
least one character. -/
def sanitizePassOne : Nat → PyStr → PyStr
  | 0, s => s
  | _ + 1, [] => []
  | f + 1, c :: rest =>
      if c = '<' then
        match splitAtGt rest with
        | none => c :: sanitizePassOne f rest
        | some (g1, after) =>
            if g1 = [] then c :: sanitizePassOne f rest
            else
              match findClose (pys "</" ++ g1 ++ pys ">") after with
              | none => c :: sanitizePassOne f rest
              | some (content, closeTok, rest2) =>
                  if isSupportedTag g1 then
                    ('<' :: g1 ++ '>' :: content ++ closeTok) ++ sanitizePassOne f rest2
                  else content ++ sanitizePassOne f rest2
      else c :: sanitizePassOne f rest

/-- Second substitution pass of _sanitize_telegram_html: the self-closing
pattern, which matches any angle-bracketed token; the replacement function
takes the first whitespace-separated word of the group as the tag name —
raising IndexError when the group is all whitespace — and keeps the token
only when that word is supported. -/
def sanitizePassTwo : Nat → PyStr → PyResult PyStr
  | 0, s => .ok s
  | _ + 1, [] => .ok []
  | f + 1, c :: rest =>
      if c = '<' then
        match splitAtGt rest with
        | none =>
            match sanitizePassTwo f rest with
            | .ok r => .ok (c :: r)
            | .raised e => .raised e
        | some (g1, after) =>
            if g1 = [] then
              match sanitizePassTwo f rest with
              | .ok r => .ok (c :: r)
              | .raised e => .raised e
            else
              match pySplit g1 with
              | [] => .raised "IndexError"
              | tag :: _ =>
                  if isSupportedTag tag then
                    match sanitizePassTwo f after with
                    | .ok r => .ok ('<' :: (g1 ++ '>' :: r))
                    | .raised e => .raised e
                  else sanitizePassTwo f after
      else
        match sanitizePassTwo f rest with
        | .ok r => .ok (c :: r)
        | .raised e => .raised e

/-- _sanitize_telegram_html: the two substitution passes in order (the final
bracket-count check only logs and does not change the result). -/
def sanitizeTelegramHtml (s : PyStr) : PyResult PyStr :=
  let s1 := sanitizePassOne s.length s
  sanitizePassTwo s1.length s1

/-- Running the sanitizer on its own output (the second application of the
idempotence claim); a raised exception propagates. -/
def sanitizeTwice (s : PyStr) : PyResult PyStr :=
  match sanitizeTelegramHtml s with
  | .ok r => sanitizeTelegramHtml r
  | .raised e => .raised e

/-- _format_for_telegram: escape the raw message, add the user-info
preamble, sanitize, and cut the result into chunks of at most 4000
units. -/
def formatForTelegram (msg : PyStr) (uc : Option UserContext)
    (includeProfilePicture : Bool) : PyResult (List PyStr) :=
  match sanitizeTelegramHtml (enhanceTelegramMessage (pyHtmlEscape msg) uc includeProfilePicture) with
  | .raised e => .raised e
  | .ok s => .ok (if s.length ≤ 4000 then [s] else splitChunks 4000 s)

/-- A string occurs in itself. -/
theorem hasSub_refl (n : PyStr) : hasSub n n = true :=
  (hasSub_iff n n).mpr ⟨[], [], by simp⟩

/-- Substring occurrence survives appending on the right. -/
theorem hasSub_append_left {n h : PyStr} (t : PyStr) (hh : hasSub n h = true) :
    hasSub n (h ++ t) = true := by
  rcases (hasSub_iff n h).mp hh with ⟨p, s, rfl⟩
  exact (hasSub_iff n _).mpr ⟨p, s ++ t, by simp⟩

/-- Substring occurrence survives prepending on the left. -/
theorem hasSub_append_right {n h : PyStr} (t : PyStr) (hh : hasSub n h = true) :
    hasSub n (t ++ h) = true := by
  rcases (hasSub_iff n h).mp hh with ⟨p, s, rfl⟩
  exact (hasSub_iff n _).mpr ⟨t ++ p, s, by simp⟩

/-- Anything occurring in one of the joined parts occurs in the join. -/
theorem joinSep_sub_of_mem (sep : PyStr) {l : List PyStr} {p x : PyStr}
    (hp : p ∈ l) (hx : hasSub x p = true) : hasSub x (joinSep sep l) = true := by
  induction l with
  | nil => cases hp
  | cons a l' ih =>
      rcases List.mem_cons.mp hp with rfl | hp'
      · cases l' with
        | nil => exact hx
        | cons b r =>
            show hasSub x (p ++ sep ++ joinSep sep (b :: r)) = true
            rw [List.append_assoc]
            exact hasSub_append_left _ hx
      · cases l' with
        | nil => cases hp'
        | cons b r =>
            show hasSub x (a ++ sep ++ joinSep sep (b :: r)) = true
            exact hasSub_append_right _ (ih hp')

/-- C9: the styled-text renderer escapes only the message argument; the
profile fields are interpolated verbatim into the preamble handed to the
sanitizer.  The sanitizer input contains the display name (the nickname,
display name or username, markup characters included) and the user id
exactly as stored, each role name among the first three exactly as stored,
and the message only in escaped form. -/
theorem C9_profile_fields_reach_sanitizer_unescaped (c : UserContext) (msg : PyStr) (inc : Bool) :
    hasSub (getDisplayName c) (enhanceTelegramMessage (pyHtmlEscape msg) (some c) inc) = true
    ∧ hasSub (pys "User ID: " ++ c.user_id)
        (enhanceTelegramMessage (pyHtmlEscape msg) (some c) inc) = true
    ∧ hasSub (pyHtmlEscape msg) (enhanceTelegramMessage (pyHtmlEscape msg) (some c) inc) = true
    ∧ ∀ rs, c.roles = some rs → ∀ r ∈ rs.take 3,
        hasSub r (enhanceTelegramMessage (pyHtmlEscape msg) (some c) inc) = true := by
  have hsection : enhanceTelegramMessage (pyHtmlEscape msg) (some c) inc
      = joinSep (pys "\n") (userInfoParts c inc) ++ pys "\n\n" ++ pyHtmlEscape msg := rfl
  have hnamesub : hasSub (getDisplayName c) (namePart c) = true := by
    unfold namePart
    split
    · exact hasSub_embed _ _ _
    · exact hasSub_embed _ _ _
  refine ⟨?_, ?_, ?_, ?_⟩
  · rw [hsection, List.append_assoc]
    exact hasSub_append_left _
      (joinSep_sub_of_mem _ (by simp [userInfoParts]) hnamesub)
  · rw [hsection, List.append_assoc]
    apply hasSub_append_left
    apply joinSep_sub_of_mem (pys "\n") (show idPart c ∈ userInfoParts c inc by simp [userInfoParts])
    have hid : idPart c = pys "<code>" ++ (pys "User ID: " ++ c.user_id) ++ pys "</code>" := by
      unfold idPart
      rw [show pys "<code>User ID: " = pys "<code>" ++ pys "User ID: " from by decide]
      simp [List.append_assoc]
    rw [hid]
    exact hasSub_embed _ _ _
  · rw [hsection]
    exact hasSub_append_right _ (hasSub_refl _)
  · intro rs hrs r hr
    have hnonempty : 0 < rs.length := by
      cases rs with
      | nil => simp at hr
      | cons a t => simp
    have hline : (pys "🏷️ Roles: " ++ rolesTextTelegram rs) ∈ userInfoParts c inc := by
      simp [userInfoParts, rolesParts, hrs, hnonempty]
    have hsubline : hasSub r (pys "🏷️ Roles: " ++ rolesTextTelegram rs) = true := by
      apply hasSub_append_right
      unfold rolesTextTelegram
      exact hasSub_append_left _ (joinSep_sub_of_mem _ hr (hasSub_refl r))
    rw [hsection, List.append_assoc]
    exact hasSub_append_left _ (joinSep_sub_of_mem _ hline hsubline)

/-- A concrete profile whose nickname and first role carry markup
characters. -/
def markupNickCtx : UserContext :=
  { user_id := pys "1", username := pys "u", nickname := some (pys "<nick> & co"),
    roles := some [pys "<r1>", pys "r2"] }

/-- Witness for C9: a nickname and a role name carrying markup characters
survive verbatim into the sanitizer input while the message is escaped. -/
theorem C9_profile_fields_reach_sanitizer_unescaped_witness :
    markupNickCtx.roles = some [pys "<r1>", pys "r2"]
    ∧ hasSub (getDisplayName markupNickCtx)
        (enhanceTelegramMessage (pyHtmlEscape (pys "hi <b>m</b>")) (some markupNickCtx) true) = true
    ∧ hasSub (pyHtmlEscape (pys "hi <b>m</b>"))
        (enhanceTelegramMessage (pyHtmlEscape (pys "hi <b>m</b>")) (some markupNickCtx) true) = true
    ∧ hasSub (pys "<r1>")
        (enhanceTelegramMessage (pyHtmlEscape (pys "hi <b>m</b>")) (some markupNickCtx) true) = true :=
  ⟨rfl,
   (C9_profile_fields_reach_sanitizer_unescaped markupNickCtx (pys "hi <b>m</b>") true).1,
   (C9_profile_fields_reach_sanitizer_unescaped markupNickCtx (pys "hi <b>m</b>") true).2.2.1,
   (C9_profile_fields_reach_sanitizer_unescaped markupNickCtx (pys "hi <b>m</b>") true).2.2.2
     [pys "<r1>", pys "r2"] rfl (pys "<r1>") (by decide)⟩

/-- The first sanitizer pass is the identity on strings without an opening
angle bracket: the pair pattern can only start at one. -/
theorem sanitizePassOne_no_lt : ∀ (f : Nat) (s : PyStr), ¬ '<' ∈ s → sanitizePassOne f s = s := by
  intro f
  induction f with
  | zero => intro s _; rfl
  | succ f ih =>
      intro s h
      cases s with
      | nil => rfl
      | cons c t =>
          have hc : ¬ c = '<' := fun hh => h (hh ▸ List.mem_cons_self c t)
          have ht : ¬ '<' ∈ t := fun hh => h (List.mem_cons_of_mem _ hh)
          simp only [sanitizePassOne]
          rw [if_neg hc, ih t ht]

/-- The second sanitizer pass returns its input unchanged on strings without
an opening angle bracket. -/
theorem sanitizePassTwo_no_lt : ∀ (f : Nat) (s : PyStr), ¬ '<' ∈ s →
    sanitizePassTwo f s = .ok s := by
  intro f
  induction f with
  | zero => intro s _; rfl
  | succ f ih =>
      intro s h
      cases s with
      | nil => rfl
      | cons c t =>
          have hc : ¬ c = '<' := fun hh => h (hh ▸ List.mem_cons_self c t)
          have ht : ¬ '<' ∈ t := fun hh => h (List.mem_cons_of_mem _ hh)
          simp only [sanitizePassTwo]
          rw [if_neg hc, ih t ht]

/-- C1 (amended): the sanitizer is the identity, and hence idempotent, on
every input without the tag-opening character; on tagged input it is not
idempotent in general (see the counterexample). -/
theorem C1_sanitize_idempotent_without_tags (s : PyStr) (h : ¬ '<' ∈ s) :
    sanitizeTelegramHtml s = .ok s ∧ sanitizeTwice s = sanitizeTelegramHtml s := by
  have h1 : sanitizeTelegramHtml s = .ok s := by
    show sanitizePassTwo (sanitizePassOne s.length s).length (sanitizePassOne s.length s) = .ok s
    rw [sanitizePassOne_no_lt s.length s h]
    exact sanitizePassTwo_no_lt _ _ h
  refine ⟨h1, ?_⟩
  unfold sanitizeTwice
  rw [h1]
  exact h1

/-- Witness for C1: on a tag-free string the sanitizer is a fixed point. -/
theorem C1_sanitize_idempotent_without_tags_witness :
    (¬ '<' ∈ pys "hello & goodbye") ∧
    sanitizeTelegramHtml (pys "hello & goodbye") = .ok (pys "hello & goodbye") ∧
    sanitizeTwice (pys "hello & goodbye") = sanitizeTelegramHtml (pys "hello & goodbye") :=
  ⟨by decide, (C1_sanitize_idempotent_without_tags _ (by decide)).1,
    (C1_sanitize_idempotent_without_tags _ (by decide)).2⟩

/-- C1 counterexample: on an input whose unsupported pair carries an
attribute-like tag body, one sanitation pass yields a string that a second
pass rewrites again, so sanitize(sanitize(x)) differs from sanitize(x).
The first pass deletes the q pair around the opening token, pass two keeps
both b-named tokens; on the second run the pair pattern now sees a matched
unsupported pair named b x and strips it. -/
theorem C1_counterexample :
    sanitizeTelegramHtml (pys "<q><b x></q>c</b x>") = .ok (pys "<b x>c</b x>")
    ∧ sanitizeTwice (pys "<q><b x></q>c</b x>") = .ok (pys "c")
    ∧ sanitizeTwice (pys "<q><b x></q>c</b x>")
        ≠ sanitizeTelegramHtml (pys "<q><b x></q>c</b x>") := by
  refine ⟨by decide, by decide, by decide⟩

/-! ## notifications/telegram_images.py — CacheManager -/

/-- A cached file on disk: its bytes and its modification time in seconds.
Bytes are modelled as a list of naturals. -/
structure FileRec where
  data : List Nat
  mtime : Int
deriving DecidableEq, Repr

instance : Inhabited FileRec := ⟨{ data := [], mtime := 0 }⟩

/-- A cache metadata record as upserted by save_thumbnail. -/
structure CacheMeta where
  cache_key : PyStr
  cache_path : PyStr
  created_at : Int
  file_size : Nat
deriving DecidableEq, Repr

/-- The state touched by CacheManager: the cache directory (an association
of file paths to files) and the optional metadata collection keyed by
(user_id, image_hash).  Times are seconds; the configuration getters of the
missing TelegramThumbnailConfig class are passed as explicit parameters. -/
structure CacheState where
  fs : List (PyStr × FileRec)
  db : Option (List ((PyStr × PyStr) × CacheMeta))
deriving DecidableEq, Repr

/-- CacheManager._get_cache_key. -/
def cacheKey (uid hash : PyStr) : PyStr := uid ++ pys "_" ++ hash

/-- CacheManager._get_cache_path, relative to the cache directory. -/
def cachePathOf (key : PyStr) : PyStr := key ++ pys ".jpg"

/-- CacheManager._remove_from_cache: delete the file and, when a metadata
collection is attached, the metadata record. -/
def removeFromCache (st : CacheState) (uid hash : PyStr) : CacheState :=
  { fs := eraseKey (cachePathOf (cacheKey uid hash)) st.fs,
    db := match st.db with
      | some coll => some (eraseKey (uid, hash) coll)
      | none => none }

/-- CacheManager.get_cached_thumbnail: absent if the file is missing; with a
metadata collection, a TTL check against the record's creation time when a
record exists (deleting on expiry) and no check at all when none exists;
without a collection, a TTL check against the file modification time.
Returns the read bytes and the possibly changed state. -/
def getCachedThumbnail (now : Int) (ttlHours : Nat) (st : CacheState) (uid hash : PyStr) :
    Option (List Nat) × CacheState :=
  match alookup (cachePathOf (cacheKey uid hash)) st.fs with
  | none => (none, st)
  | some fr =>
      match st.db with
      | some coll =>
          match alookup (uid, hash) coll with
          | some m =>
              if (ttlHours : Int) * 3600 < now - m.created_at then
                (none, removeFromCache st uid hash)
              else (some fr.data, st)
          | none => (some fr.data, st)
      | none =>
          if (ttlHours : Int) * 3600 < now - fr.mtime then
            (none, { st with fs := eraseKey (cachePathOf (cacheKey uid hash)) st.fs })
          else (some fr.data, st)

/-- CacheManager.save_thumbnail: write the file (modification time now) and,
when a metadata collection is attached, upsert the record with creation time
now and the byte size. -/
def saveThumbnail (now : Int) (st : CacheState) (uid hash : PyStr) (data : List Nat) :
    Bool × CacheState :=
  (true,
   { fs := upsertA (cachePathOf (cacheKey uid hash)) { data := data, mtime := now } st.fs,
     db := match st.db with
       | some coll =>
           some (upsertA (uid, hash)
             { cache_key := cacheKey uid hash,
               cache_path := cachePathOf (cacheKey uid hash),
               created_at := now,
               file_size := data.length } coll)
       | none => none })

/-- C7: a put followed by an immediate get with the same key returns exactly
the stored bytes; and a get on an entry whose age strictly exceeds the TTL
window returns absent and removes the entry's file — both in the
metadata-free mode (age from the file modification time) and in the
metadata mode when a record exists (age from the record creation time). -/
theorem C7_cache_roundtrip_and_expiry :
    (∀ (now : Int) (ttl : Nat) (st : CacheState) (uid hash : PyStr) (data : List Nat),
      (getCachedThumbnail now ttl (saveThumbnail now st uid hash data).2 uid hash).1 = some data)
    ∧ (∀ (now : Int) (ttl : Nat) (st : CacheState) (uid hash : PyStr) (fr : FileRec),
        st.db = none →
        alookup (cachePathOf (cacheKey uid hash)) st.fs = some fr →
        (ttl : Int) * 3600 < now - fr.mtime →
        (getCachedThumbnail now ttl st uid hash).1 = none
        ∧ alookup (cachePathOf (cacheKey uid hash))
            (getCachedThumbnail now ttl st uid hash).2.fs = none)
    ∧ (∀ (now : Int) (ttl : Nat) (st : CacheState)
        (coll : List ((PyStr × PyStr) × CacheMeta)) (uid hash : PyStr)
        (fr : FileRec) (m : CacheMeta),
        st.db = some coll →
        alookup (cachePathOf (cacheKey uid hash)) st.fs = some fr →
        alookup (uid, hash) coll = some m →
        (ttl : Int) * 3600 < now - m.created_at →
        (getCachedThumbnail now ttl st uid hash).1 = none
        ∧ alookup (cachePathOf (cacheKey uid hash))
            (getCachedThumbnail now ttl st uid hash).2.fs = none) := by
  refine ⟨?_, ?_, ?_⟩
  · intro now ttl st uid hash data
    unfold getCachedThumbnail saveThumbnail
    rw [alookup_upsertA]
    cases hdb : st.db with
    | none =>
        dsimp only []
        rw [if_neg (show ¬ ((ttl : Int) * 3600 < now - now) from by omega)]
    | some coll =>
        dsimp only []
        rw [alookup_upsertA]
        dsimp only []
        rw [if_neg (show ¬ ((ttl : Int) * 3600 < now - now) from by omega)]
  · intro now ttl st uid hash fr hdb hfile hexp
    unfold getCachedThumbnail
    rw [hfile, hdb]
    dsimp only []
    rw [if_pos hexp]
    exact ⟨rfl, alookup_eraseKey _ _⟩
  · intro now ttl st coll uid hash fr m hdb hfile hmeta hexp
    unfold getCachedThumbnail
    rw [hfile, hdb]
    dsimp only []
    rw [hmeta]
    dsimp only []
    rw [if_pos hexp]
    refine ⟨rfl, ?_⟩
    show alookup (cachePathOf (cacheKey uid hash)) (removeFromCache st uid hash).fs = none
    unfold removeFromCache
    exact alookup_eraseKey _ _

/-- A concrete stale cache file for the C7 witness. -/
def c7fileA : FileRec := { data := [7], mtime := 0 }

/-- A concrete metadata record for the C7 witness. -/
def c7meta : CacheMeta :=
  { cache_key := cacheKey (pys "u") (pys "h"),
    cache_path := cachePathOf (cacheKey (pys "u") (pys "h")),
    created_at := 0, file_size := 1 }

/-- A metadata-free cache state holding one stale file. -/
def c7stA : CacheState :=
  { fs := [(cachePathOf (cacheKey (pys "u") (pys "h")), c7fileA)], db := none }

/-- A metadata-attached cache state holding one stale file with its
record. -/
def c7stB : CacheState :=
  { fs := [(cachePathOf (cacheKey (pys "u") (pys "h")), c7fileA)],
    db := some [((pys "u", pys "h"), c7meta)] }

/-- Witness for C7: a concrete roundtrip, and concrete expiries in both
modes. -/
theorem C7_cache_roundtrip_and_expiry_witness :
    (getCachedThumbnail 100 24
        (saveThumbnail 100 { fs := [], db := none } (pys "u") (pys "h") [1, 2, 3]).2
        (pys "u") (pys "h")).1 = some [1, 2, 3]
    ∧ (c7stA.db = none
       ∧ alookup (cachePathOf (cacheKey (pys "u") (pys "h"))) c7stA.fs = some c7fileA
       ∧ (24 : Int) * 3600 < 100000 - c7fileA.mtime
       ∧ (getCachedThumbnail 100000 24 c7stA (pys "u") (pys "h")).1 = none
       ∧ alookup (cachePathOf (cacheKey (pys "u") (pys "h")))
           (getCachedThumbnail 100000 24 c7stA (pys "u") (pys "h")).2.fs = none)
    ∧ (c7stB.db = some [((pys "u", pys "h"), c7meta)]
       ∧ alookup (cachePathOf (cacheKey (pys "u") (pys "h"))) c7stB.fs = some c7fileA
       ∧ alookup (pys "u", pys "h") [((pys "u", pys "h"), c7meta)] = some c7meta
       ∧ (24 : Int) * 3600 < 100000 - c7meta.created_at
       ∧ (getCachedThumbnail 100000 24 c7stB (pys "u") (pys "h")).1 = none
       ∧ alookup (cachePathOf (cacheKey (pys "u") (pys "h")))
           (getCachedThumbnail 100000 24 c7stB (pys "u") (pys "h")).2.fs = none) :=
  ⟨C7_cache_roundtrip_and_expiry.1 100 24 { fs := [], db := none } (pys "u") (pys "h") [1, 2, 3],
   ⟨rfl, by decide, by decide,
    (C7_cache_roundtrip_and_expiry.2.1 100000 24 c7stA (pys "u") (pys "h") c7fileA
      rfl (by decide) (by decide)).1,
    (C7_cache_roundtrip_and_expiry.2.1 100000 24 c7stA (pys "u") (pys "h") c7fileA
      rfl (by decide) (by decide)).2⟩,
   ⟨rfl, by decide, by decide, by decide,
    (C7_cache_roundtrip_and_expiry.2.2 100000 24 c7stB [((pys "u", pys "h"), c7meta)]
      (pys "u") (pys "h") c7fileA c7meta rfl (by decide) (by decide) (by decide)).1,
    (C7_cache_roundtrip_and_expiry.2.2 100000 24 c7stB [((pys "u", pys "h"), c7meta)]
      (pys "u") (pys "h") c7fileA c7meta rfl (by decide) (by decide) (by decide)).2⟩⟩

/-- C10: with a metadata collection attached but holding no record for an
existing cache file's key, get returns the file bytes with no TTL check at
all — the state is unchanged and the result does not depend on the file's
age. -/
theorem C10_get_skips_ttl_without_metadata (now : Int) (ttl : Nat) (st : CacheState)
    (coll : List ((PyStr × PyStr) × CacheMeta)) (uid hash : PyStr) (fr : FileRec)
    (hdb : st.db = some coll)
    (hfile : alookup (cachePathOf (cacheKey uid hash)) st.fs = some fr)
    (hmeta : alookup (uid, hash) coll = none) :
    getCachedThumbnail now ttl st uid hash = (some fr.data, st) := by
  unfold getCachedThumbnail
  rw [hfile, hdb]
  dsimp only []
  rw [hmeta]

/-- A very old cache file for the C10 witness. -/
def c10file : FileRec := { data := [9, 9], mtime := -100000000 }

/-- A cache state with an attached but empty metadata collection. -/
def c10st : CacheState :=
  { fs := [(cachePathOf (cacheKey (pys "u") (pys "h")), c10file)], db := some [] }

/-- Witness for C10: an entry far older than any TTL is still returned when
no metadata record exists for it. -/
theorem C10_get_skips_ttl_without_metadata_witness :
    c10st.db = some []
    ∧ alookup (cachePathOf (cacheKey (pys "u") (pys "h"))) c10st.fs = some c10file
    ∧ alookup (pys "u", pys "h") ([] : List ((PyStr × PyStr) × CacheMeta)) = none
    ∧ getCachedThumbnail 999999999 1 c10st (pys "u") (pys "h") = (some c10file.data, c10st) :=
  ⟨rfl, by decide, rfl,
   C10_get_skips_ttl_without_metadata 999999999 1 c10st [] (pys "u") (pys "h") c10file
     rfl (by decide) rfl⟩

/-! ## notifications/manager.py and the provider send paths -/

/-- A registered channel provider, with the runtime facts its send path
branches on: for Telegram, whether initialize ran (bot set) and whether the
transport succeeds (a transport failure raises TelegramError, which the
provider catches); for Discord, whether the whole guarded send succeeds
(its handler catches every exception).  Both are modelled without a
profile-picture manager (thumbnails disabled), whose inner block catches
all exceptions anyway. -/
inductive ProviderModel where
  | telegramProvider (botInitialized : Bool) (transportOk : Bool)
  | discordProvider (sendOk : Bool)
deriving DecidableEq, Repr

/-- TelegramNotificationProvider.send_notification: a missing bot returns
false; the message is then formatted — an exception raised there (such as
the IndexError of the sanitizer) is not a TelegramError and propagates —
and the chunks are sent, a transport TelegramError being caught as
false. -/
def telegramSend (botInitialized transportOk : Bool) (message : PyStr)
    (uc : Option UserContext) : PyResult Bool :=
  if !botInitialized then .ok false
  else
    match formatForTelegram message uc true with
    | .raised e => .raised e
    | .ok _ => if transportOk then .ok true else .ok false

/-- The dispatch of a provider's send_notification.  Discord's handler
catches every exception, so it always returns a boolean; the extra link
parameters are ignored by the Telegram path as in the source. -/
def providerSend (p : ProviderModel) (message : PyStr) (uc : Option UserContext) : PyResult Bool :=
  match p with
  | .telegramProvider b t => telegramSend b t message uc
  | .discordProvider ok => .ok ok

/-- NotificationManager.send_notification: an unregistered provider name is
reported as false; otherwise the provider's send runs unguarded. -/
def sendNotification (providers : List (PyStr × ProviderModel)) (name : PyStr)
    (message : PyStr) (uc : Option UserContext) : PyResult Bool :=
  match alookup name providers with
  | none => .ok false
  | some p => providerSend p message uc

/-- NotificationManager.send_notification_all: iterate the requested
channels in order, collecting per-channel boolean results; an exception
from one send propagates and abandons the remaining channels, since the
loop has no handler. -/
def sendNotificationAll (providers : List (PyStr × ProviderModel))
    (reqs : List (PyStr × PyStr)) (message : PyStr) (uc : Option UserContext) :
    PyResult (List (PyStr × Bool)) :=
  match reqs with
  | [] => .ok []
  | (name, _uid) :: rest =>
      match sendNotification providers name message uc with
      | .raised e => .raised e
      | .ok b =>
          match sendNotificationAll providers rest message uc with
          | .raised e => .raised e
          | .ok rs => .ok ((name, b) :: rs)

/-- A profile whose nickname is an angle-bracketed blank, which makes the
sanitizer's second pass evaluate split()[0] of a whitespace-only group. -/
def blankTagCtx : UserContext :=
  { user_id := pys "1", username := pys "u", nickname := some (pys "< >") }

/-- A manager with a healthy Telegram provider and a healthy Discord
provider registered. -/
def twoChannelMgr : List (PyStr × ProviderModel) :=
  [(pys "telegram", .telegramProvider true true),
   (pys "discord", .discordProvider true)]

/-- C3 at its failing input: a nickname of an angle-bracketed blank makes
the Telegram provider's formatting raise IndexError, which only a
TelegramError handler guards, so send_notification_all raises and the
Discord channel listed after it is never attempted — against the claim
that every requested channel gets a boolean and nothing raises.  When no
send raises, the per-channel results do come back, with false for an
unregistered name. -/
theorem C3_provider_exception_escapes_manager :
    sendNotificationAll twoChannelMgr
        [(pys "telegram", pys "111"), (pys "discord", pys "222")]
        (pys "hi") (some blankTagCtx) = .raised "IndexError"
    ∧ sendNotificationAll twoChannelMgr
        [(pys "discord", pys "222"), (pys "missing", pys "9")]
        (pys "hi") none
        = .ok [(pys "discord", true), (pys "missing", false)] := by
  refine ⟨by decide, by decide⟩

/-! ## CacheManager.cleanup_cache — two-phase cleanup -/

/-- The statistics dictionary returned by cleanup_cache. -/
structure CleanupStats where
  expired_removed : Nat
  size_limit_removed : Nat
deriving DecidableEq, Repr

/-- The comparison the source sorts cache files by: modification time,
oldest first. -/
def entLe (a b : PyStr × FileRec) : Prop := a.2.mtime ≤ b.2.mtime

instance : DecidableRel entLe :=
  fun a b => inferInstanceAs (Decidable (a.2.mtime ≤ b.2.mtime))

instance : IsTotal (PyStr × FileRec) entLe := ⟨fun a b => Int.le_total a.2.mtime b.2.mtime⟩

instance : IsTrans (PyStr × FileRec) entLe := ⟨fun _ _ _ => le_trans⟩

/-- The cache_files.sort of cleanup_cache: a stable sort by modification
time, oldest first. -/
def sortFiles (l : List (PyStr × FileRec)) : List (PyStr × FileRec) :=
  List.insertionSort entLe l

/-- The aggregate byte size of a list of cache files. -/
def sumSizes (l : List (PyStr × FileRec)) : Nat :=
  (l.map (fun e => e.2.data.length)).sum

/-- The expiry test of the cleanup loop: modification time strictly before
the cutoff. -/
def isExpiredB (cutoff : Int) (e : PyStr × FileRec) : Bool :=
  decide (e.2.mtime < cutoff)

/-- The first loop of cleanup_cache: walk the sorted file list, unlinking
every file whose modification time is strictly before the cutoff and
counting the removals. -/
def removeExpired (cutoff : Int) :
    List (PyStr × FileRec) → List (PyStr × FileRec) → List (PyStr × FileRec) × Nat
  | [], fs => (fs, 0)
  | e :: rest, fs =>
      if e.2.mtime < cutoff then
        ((removeExpired cutoff rest (eraseKey e.1 fs)).1,
         (removeExpired cutoff rest (eraseKey e.1 fs)).2 + 1)
      else removeExpired cutoff rest fs

/-- The second loop of cleanup_cache: while the tracked total exceeds the
ceiling and the sorted list is non-empty, pop the oldest entry; if its file
still exists, subtract its size, unlink it and count it, otherwise skip
it. -/
def removeOldest (maxB : Nat) :
    List (PyStr × FileRec) → List (PyStr × FileRec) → Nat → Nat →
      List (PyStr × FileRec) × Nat
  | [], fs, _, cnt => (fs, cnt)
  | e :: rest, fs, total, cnt =>
      if total ≤ maxB then (fs, cnt)
      else
        match alookup e.1 fs with
        | some fr => removeOldest maxB rest (eraseKey e.1 fs) (total - fr.data.length) (cnt + 1)
        | none => removeOldest maxB rest fs total cnt

/-- Phase one of cleanup_cache: expire against the cutoff now minus the TTL
in seconds, iterating over the time-sorted file list. -/
def cleanupPhase1 (now : Int) (ttl : Nat) (st : CacheState) :
    List (PyStr × FileRec) × Nat :=
  removeExpired (now - (ttl : Int) * 3600) (sortFiles st.fs) st.fs

/-- Phase two of cleanup_cache: re-measure the remaining aggregate size and
evict oldest-first from the same sorted list until at or under the
ceiling of maxSizeMb megabytes. -/
def cleanupPhase2 (now : Int) (ttl maxSizeMb : Nat) (st : CacheState) :
    List (PyStr × FileRec) × Nat :=
  removeOldest (maxSizeMb * 1024 * 1024) (sortFiles st.fs) (cleanupPhase1 now ttl st).1
    (sumSizes (cleanupPhase1 now ttl st).1) 0

/-- CacheManager.cleanup_cache: the two removal phases with their separate
counters, then — when a metadata collection is attached and something was
removed — deletion of the records whose file no longer exists. -/
def cleanupCache (now : Int) (ttl maxSizeMb : Nat) (st : CacheState) :
    CacheState × CleanupStats :=
  ({ fs := (cleanupPhase2 now ttl maxSizeMb st).1,
     db :=
       match st.db with
       | some coll =>
           if 0 < (cleanupPhase1 now ttl st).2 + (cleanupPhase2 now ttl maxSizeMb st).2 then
             some (coll.filter
               (fun m => (alookup m.2.cache_path (cleanupPhase2 now ttl maxSizeMb st).1).isSome))
           else some coll
       | none => none },
   { expired_removed := (cleanupPhase1 now ttl st).2,
     size_limit_removed := (cleanupPhase2 now ttl maxSizeMb st).2 })

/-- The specification-side eviction: drop entries from the front (the
oldest, since the list is sorted by modification time) while the aggregate
size still exceeds the ceiling. -/
def shrinkOldest (maxB : Nat) : List (PyStr × FileRec) → List (PyStr × FileRec)
  | [] => []
  | e :: t => if sumSizes (e :: t) ≤ maxB then e :: t else shrinkOldest maxB t

/-- The eviction result never lengthens the list. -/
theorem shrinkOldest_length_le (maxB : Nat) :
    ∀ l : List (PyStr × FileRec), (shrinkOldest maxB l).length ≤ l.length := by
  intro l
  induction l with
  | nil => simp [shrinkOldest]
  | cons e t ih =>
      unfold shrinkOldest
      split
      · exact Nat.le_refl _
      · exact Nat.le_trans ih (by simp)

/-- The eviction result is at or under the ceiling. -/
theorem shrinkOldest_sum_le (maxB : Nat) :
    ∀ l : List (PyStr × FileRec), sumSizes (shrinkOldest maxB l) ≤ maxB := by
  intro l
  induction l with
  | nil => simp [shrinkOldest, sumSizes]
  | cons e t ih =>
      unfold shrinkOldest
      split
      next h => exact h
      next h => exact ih

/-- In an association list with pairwise distinct keys, entries are
determined by their key. -/
theorem key_inj {κ α : Type} {l : List (κ × α)} (hnd : (l.map Prod.fst).Nodup)
    {a b : κ × α} (ha : a ∈ l) (hb : b ∈ l) (hk : a.1 = b.1) : a = b := by
  induction l with
  | nil => cases ha
  | cons x t ih =>
      rw [List.map_cons, List.nodup_cons] at hnd
      rcases List.mem_cons.mp ha with rfl | ha'
      · rcases List.mem_cons.mp hb with rfl | hb'
        · rfl
        · exact absurd (hk ▸ List.mem_map_of_mem Prod.fst hb') hnd.1
      · rcases List.mem_cons.mp hb with rfl | hb'
        · exact absurd (hk ▸ List.mem_map_of_mem Prod.fst ha') hnd.1
        · exact ih hnd.2 ha' hb'

/-- With pairwise distinct keys, looking up a member entry's key finds its
value. -/
theorem alookup_mem {κ α : Type} [DecidableEq κ] {l : List (κ × α)}
    (hnd : (l.map Prod.fst).Nodup) {e : κ × α} (he : e ∈ l) :
    alookup e.1 l = some e.2 := by
  induction l with
  | nil => cases he
  | cons x t ih =>
      rw [List.map_cons, List.nodup_cons] at hnd
      obtain ⟨k', v'⟩ := x
      rcases List.mem_cons.mp he with rfl | he'
      · rw [alookup_cons, if_pos rfl]
      · rw [alookup_cons]
        rw [if_neg ?_]
        · exact ih hnd.2 he'
        · intro hh
          have hmem : e.1 ∈ t.map Prod.fst := List.mem_map_of_mem Prod.fst he'
          rw [hh] at hmem
          exact hnd.1 hmem

/-- alookup fails exactly on keys outside the key list. -/
theorem alookup_eq_none_iff {κ α : Type} [DecidableEq κ] (k : κ) (l : List (κ × α)) :
    alookup k l = none ↔ k ∉ l.map Prod.fst := by
  induction l with
  | nil => simp [alookup]
  | cons x t ih =>
      obtain ⟨k', v'⟩ := x
      rw [alookup_cons]
      by_cases he : k = k'
      · simp [he]
      · simp [he, ih]

/-- The expiry loop counts exactly the files older than the cutoff. -/
theorem removeExpired_count (cutoff : Int) :
    ∀ (files fs : List (PyStr × FileRec)),
      (removeExpired cutoff files fs).2 = (files.filter (isExpiredB cutoff)).length := by
  intro files
  induction files with
  | nil => intro fs; rfl
  | cons e rest ih =>
      intro fs
      unfold removeExpired
      by_cases he : e.2.mtime < cutoff
      · rw [if_pos he]
        dsimp only []
        rw [ih (eraseKey e.1 fs)]
        simp [List.filter_cons, isExpiredB, he]
      · rw [if_neg he, ih fs]
        simp [List.filter_cons, isExpiredB, he]

/-- The expiry loop removes exactly the files whose key matches some
expired entry of the iterated list. -/
theorem removeExpired_fs (cutoff : Int) :
    ∀ (files fs : List (PyStr × FileRec)),
      (removeExpired cutoff files fs).1
        = fs.filter
            (fun f => !(files.any (fun e => isExpiredB cutoff e && decide (f.1 = e.1)))) := by
  intro files
  induction files with
  | nil => intro fs; simp [removeExpired]
  | cons e rest ih =>
      intro fs
      unfold removeExpired
      by_cases he : e.2.mtime < cutoff
      · rw [if_pos he]
        dsimp only []
        rw [ih (eraseKey e.1 fs)]
        unfold eraseKey
        rw [List.filter_filter]
        apply List.filter_congr
        intro f _
        show (_ && _) = _
        rw [List.any_cons]
        show _ = !(isExpiredB cutoff e && decide (f.1 = e.1) || _)
        rw [show isExpiredB cutoff e = true from decide_eq_true he]
        rw [Bool.true_and, Bool.not_or]
        exact Bool.and_comm _ _
      · rw [if_neg he, ih fs]
        apply List.filter_congr
        intro f _
        rw [List.any_cons]
        rw [show isExpiredB cutoff e = false from decide_eq_false he]
        rw [Bool.false_and, Bool.false_or]

/-- Unfolding lemma for one step of the size loop. -/
theorem removeOldest_cons (maxB : Nat) (e : PyStr × FileRec)
    (rest fs : List (PyStr × FileRec)) (total cnt : Nat) :
    removeOldest maxB (e :: rest) fs total cnt
      = if total ≤ maxB then (fs, cnt)
        else
          match alookup e.1 fs with
          | some fr => removeOldest maxB rest (eraseKey e.1 fs) (total - fr.data.length) (cnt + 1)
          | none => removeOldest maxB rest fs total cnt := rfl

/-- The size loop stops immediately when the tracked total is at or under
the ceiling. -/
theorem removeOldest_stop (maxB : Nat) (q fs : List (PyStr × FileRec)) (total cnt : Nat)
    (h : total ≤ maxB) : removeOldest maxB q fs total cnt = (fs, cnt) := by
  cases q with
  | nil => rfl
  | cons e rest =>
      unfold removeOldest
      rw [if_pos h]

/-- Entries whose files are already gone are popped without effect. -/
theorem removeOldest_skip_front (maxB : Nat) :
    ∀ (bad q fs : List (PyStr × FileRec)) (total cnt : Nat),
      (∀ e ∈ bad, alookup e.1 fs = none) →
      removeOldest maxB (bad ++ q) fs total cnt = removeOldest maxB q fs total cnt := by
  intro bad
  induction bad with
  | nil => intro q fs total cnt _; rfl
  | cons e bad' ih =>
      intro q fs total cnt h
      rw [List.cons_append, removeOldest_cons]
      by_cases htot : total ≤ maxB
      · rw [if_pos htot, removeOldest_stop maxB q fs total cnt htot]
      · rw [if_neg htot, h e (List.mem_cons_self e bad')]
        exact ih q fs total cnt (fun x hx => h x (List.mem_cons_of_mem e hx))

/-- On a queue that is a permutation of the directory with distinct keys
and a correctly tracked total, the size loop computes exactly the
drop-oldest-while-over-ceiling eviction, and counts the dropped
entries. -/
theorem removeOldest_spec (maxB : Nat) :
    ∀ (q fs : List (PyStr × FileRec)) (total cnt : Nat),
      fs.Perm q → (q.map Prod.fst).Nodup → total = sumSizes fs →
      (removeOldest maxB q fs total cnt).1.Perm (shrinkOldest maxB q)
      ∧ (removeOldest maxB q fs total cnt).2
          = cnt + (q.length - (shrinkOldest maxB q).length) := by
  intro q
  induction q with
  | nil =>
      intro fs total cnt hperm _ _
      have hfs : fs = [] := hperm.eq_nil
      subst hfs
      exact ⟨List.Perm.refl _, by simp [removeOldest, shrinkOldest]⟩
  | cons e rest ih =>
      intro fs total cnt hperm hnodup htotal
      have hsum : sumSizes fs = sumSizes (e :: rest) := by
        unfold sumSizes
        exact (hperm.map (fun x => x.2.data.length)).sum_eq
      rw [removeOldest_cons]
      unfold shrinkOldest
      by_cases htot : total ≤ maxB
      · rw [if_pos htot, if_pos (by rw [← hsum, ← htotal]; exact htot)]
        exact ⟨hperm, by simp⟩
      · rw [if_neg htot, if_neg (by rw [← hsum, ← htotal]; exact htot)]
        have hfs_nodup : (fs.map Prod.fst).Nodup := ((hperm.map Prod.fst).nodup_iff).mpr hnodup
        have hel : e ∈ fs := hperm.mem_iff.mpr (List.mem_cons_self e rest)
        rw [alookup_mem hfs_nodup hel]
        dsimp only []
        have hkeys : e.1 ∉ rest.map Prod.fst := by
          rw [List.map_cons, List.nodup_cons] at hnodup
          exact hnodup.1
        have herase : (eraseKey e.1 fs).Perm rest := by
          have h1 : (eraseKey e.1 fs).Perm (eraseKey e.1 (e :: rest)) := hperm.filter _
          have h2 : eraseKey e.1 (e :: rest) = rest := by
            unfold eraseKey
            rw [List.filter_cons, if_neg (by simp)]
            refine List.filter_eq_self.mpr (fun f hf => ?_)
            simp only [Bool.not_eq_true', decide_eq_false_iff_not]
            intro hh
            have hmem : f.1 ∈ rest.map Prod.fst := List.mem_map_of_mem Prod.fst hf
            rw [hh] at hmem
            exact hkeys hmem
          rw [h2] at h1
          exact h1
        have hnodup' : (rest.map Prod.fst).Nodup := by
          rw [List.map_cons, List.nodup_cons] at hnodup
          exact hnodup.2
        have hsum' : total - e.2.data.length = sumSizes (eraseKey e.1 fs) := by
          have hse : sumSizes (eraseKey e.1 fs) = sumSizes rest := by
            unfold sumSizes
            exact (herase.map (fun x => x.2.data.length)).sum_eq
          have hcons : sumSizes (e :: rest) = e.2.data.length + sumSizes rest := by
            simp [sumSizes]
          rw [hse]
          omega
        obtain ⟨ih1, ih2⟩ :=
          ih (eraseKey e.1 fs) (total - e.2.data.length) (cnt + 1) herase hnodup' hsum'
        refine ⟨ih1, ?_⟩
        rw [ih2]
        have hlen := shrinkOldest_length_le maxB rest
        simp only [List.length_cons]
        omega

/-- In a list sorted by modification time, the expired entries form the
front: the list splits as its expired part followed by its fresh part. -/
theorem sorted_split_expired (cutoff : Int) :
    ∀ l : List (PyStr × FileRec), List.Pairwise entLe l →
      l = l.filter (isExpiredB cutoff) ++ l.filter (fun e => !isExpiredB cutoff e) := by
  intro l
  induction l with
  | nil => intro _; rfl
  | cons x t ih =>
      intro hp
      rw [List.pairwise_cons] at hp
      by_cases hx : x.2.mtime < cutoff
      · have hxe : isExpiredB cutoff x = true := decide_eq_true hx
        rw [List.filter_cons, List.filter_cons, if_pos (by simp [hxe]),
          if_neg (by simp [hxe]), List.cons_append]
        rw [← ih hp.2]
      · have hxe : isExpiredB cutoff x = false := decide_eq_false hx
        have hall : ∀ b ∈ t, isExpiredB cutoff b = false := by
          intro b hb
          have hle : x.2.mtime ≤ b.2.mtime := hp.1 b hb
          exact decide_eq_false (by omega)
        rw [List.filter_cons, List.filter_cons, if_neg (by simp [hxe]),
          if_pos (by simp [hxe])]
        rw [show t.filter (isExpiredB cutoff) = [] from
          List.filter_eq_nil_iff.mpr (fun a ha => by simp [hall a ha])]
        rw [List.nil_append]
        rw [List.filter_eq_self.mpr (fun a ha => by simp [hall a ha])]

/-- Phase one leaves exactly the unexpired files of the directory (with
distinct paths), in directory order. -/
theorem cleanupPhase1_fs (now : Int) (ttl : Nat) (st : CacheState)
    (hnodup : (st.fs.map Prod.fst).Nodup) :
    (cleanupPhase1 now ttl st).1
      = st.fs.filter (fun e => !isExpiredB (now - (ttl : Int) * 3600) e) := by
  unfold cleanupPhase1
  rw [removeExpired_fs]
  apply List.filter_congr
  intro f hf
  have hfsorted : f ∈ sortFiles st.fs :=
    (List.perm_insertionSort entLe st.fs).mem_iff.mpr hf
  cases hfe : isExpiredB (now - (ttl : Int) * 3600) f
  · have hany : ((sortFiles st.fs).any
        (fun e => isExpiredB (now - (ttl : Int) * 3600) e && decide (f.1 = e.1))) = false := by
      rw [List.any_eq_false]
      intro e hesorted hcontra
      rw [Bool.and_eq_true] at hcontra
      obtain ⟨hexp, hkey⟩ := hcontra
      have hee : e ∈ st.fs := (List.perm_insertionSort entLe st.fs).mem_iff.mp hesorted
      have hfeq : f = e := key_inj hnodup hf hee (of_decide_eq_true hkey)
      rw [← hfeq] at hexp
      rw [hfe] at hexp
      cases hexp
    rw [hany]
  · have hany : ((sortFiles st.fs).any
        (fun e => isExpiredB (now - (ttl : Int) * 3600) e && decide (f.1 = e.1))) = true :=
      List.any_eq_true.mpr ⟨f, hfsorted, by simp [hfe]⟩
    rw [hany]

/-- Phase one counts exactly the expired files of the directory. -/
theorem cleanupPhase1_count (now : Int) (ttl : Nat) (st : CacheState) :
    (cleanupPhase1 now ttl st).2
      = (st.fs.filter (isExpiredB (now - (ttl : Int) * 3600))).length := by
  unfold cleanupPhase1
  rw [removeExpired_count]
  exact ((List.perm_insertionSort entLe st.fs).filter _).length_eq

/-- C6: cleanup is two-phase.  Phase one removes exactly the entries whose
modification time is strictly before now minus the TTL (so an entry of age
TTL plus one second goes, one of age TTL minus one second stays), reporting
their number; phase two then evicts, strictly oldest-first from the
time-sorted survivors, while the remaining aggregate size exceeds the
ceiling — the surviving directory is a permutation of the
drop-oldest-while-over-ceiling eviction of the survivors — reporting that
count separately; and the final aggregate size is at or under the
ceiling. -/
theorem C6_cleanup_two_phase (now : Int) (ttl maxMb : Nat) (st : CacheState)
    (hnodup : (st.fs.map Prod.fst).Nodup) :
    (cleanupCache now ttl maxMb st).2.expired_removed
        = (st.fs.filter (isExpiredB (now - (ttl : Int) * 3600))).length
    ∧ (cleanupPhase1 now ttl st).1
        = st.fs.filter (fun e => !isExpiredB (now - (ttl : Int) * 3600) e)
    ∧ (cleanupCache now ttl maxMb st).1.fs.Perm
        (shrinkOldest (maxMb * 1024 * 1024)
          ((sortFiles st.fs).filter (fun e => !isExpiredB (now - (ttl : Int) * 3600) e)))
    ∧ (cleanupCache now ttl maxMb st).2.size_limit_removed
        = ((sortFiles st.fs).filter (fun e => !isExpiredB (now - (ttl : Int) * 3600) e)).length
          - (shrinkOldest (maxMb * 1024 * 1024)
              ((sortFiles st.fs).filter
                (fun e => !isExpiredB (now - (ttl : Int) * 3600) e))).length
    ∧ sumSizes (cleanupCache now ttl maxMb st).1.fs ≤ maxMb * 1024 * 1024 := by
  have hsorted : List.Pairwise entLe (sortFiles st.fs) :=
    List.sorted_insertionSort entLe st.fs
  have hsplit : sortFiles st.fs
      = (sortFiles st.fs).filter (isExpiredB (now - (ttl : Int) * 3600))
        ++ (sortFiles st.fs).filter (fun e => !isExpiredB (now - (ttl : Int) * 3600) e) :=
    sorted_split_expired _ _ hsorted
  have hfs1 : (cleanupPhase1 now ttl st).1
      = st.fs.filter (fun e => !isExpiredB (now - (ttl : Int) * 3600) e) :=
    cleanupPhase1_fs now ttl st hnodup
  have hskip : ∀ e ∈ (sortFiles st.fs).filter (isExpiredB (now - (ttl : Int) * 3600)),
      alookup e.1 (cleanupPhase1 now ttl st).1 = none := by
    intro e he
    obtain ⟨hes, hexp⟩ := List.mem_filter.mp he
    rw [hfs1, alookup_eq_none_iff]
    intro hmem
    obtain ⟨f, hf, hfkey⟩ := List.mem_map.mp hmem
    obtain ⟨hffs, hfnot⟩ := List.mem_filter.mp hf
    have hee : e ∈ st.fs := (List.perm_insertionSort entLe st.fs).mem_iff.mp hes
    have hfeq : f = e := key_inj hnodup hffs hee hfkey
    rw [hfeq, hexp] at hfnot
    cases hfnot
  have hsurv_perm : (cleanupPhase1 now ttl st).1.Perm
      ((sortFiles st.fs).filter (fun e => !isExpiredB (now - (ttl : Int) * 3600) e)) := by
    rw [hfs1]
    exact ((List.perm_insertionSort entLe st.fs).filter _).symm
  have hnodup_sorted : ((sortFiles st.fs).map Prod.fst).Nodup :=
    (((List.perm_insertionSort entLe st.fs).map Prod.fst).nodup_iff).mpr hnodup
  have hsurv_nodup : (((sortFiles st.fs).filter
      (fun e => !isExpiredB (now - (ttl : Int) * 3600) e)).map Prod.fst).Nodup :=
    List.Nodup.sublist ((List.filter_sublist _).map Prod.fst) hnodup_sorted
  have hphase2 : cleanupPhase2 now ttl maxMb st
      = removeOldest (maxMb * 1024 * 1024)
          ((sortFiles st.fs).filter (fun e => !isExpiredB (now - (ttl : Int) * 3600) e))
          (cleanupPhase1 now ttl st).1 (sumSizes (cleanupPhase1 now ttl st).1) 0 := by
    unfold cleanupPhase2
    conv_lhs => rw [hsplit]
    rw [removeOldest_skip_front _ _ _ _ _ _ hskip]
  have hspec := removeOldest_spec (maxMb * 1024 * 1024)
    ((sortFiles st.fs).filter (fun e => !isExpiredB (now - (ttl : Int) * 3600) e))
    (cleanupPhase1 now ttl st).1 (sumSizes (cleanupPhase1 now ttl st).1) 0
    hsurv_perm hsurv_nodup rfl
  refine ⟨?_, hfs1, ?_, ?_, ?_⟩
  · show (cleanupPhase1 now ttl st).2 = _
    exact cleanupPhase1_count now ttl st
  · show (cleanupPhase2 now ttl maxMb st).1.Perm _
    rw [hphase2]
    exact hspec.1
  · show (cleanupPhase2 now ttl maxMb st).2 = _
    rw [hphase2, hspec.2]
    simp
  · show sumSizes (cleanupPhase2 now ttl maxMb st).1 ≤ _
    have hsum : sumSizes (cleanupPhase2 now ttl maxMb st).1
        = sumSizes (shrinkOldest (maxMb * 1024 * 1024)
            ((sortFiles st.fs).filter (fun e => !isExpiredB (now - (ttl : Int) * 3600) e))) := by
      unfold sumSizes
      refine List.Perm.sum_eq (List.Perm.map _ ?_)
      rw [hphase2]
      exact hspec.1
    rw [hsum]
    exact shrinkOldest_sum_le _ _

/-- A file one second older than a one-hour TTL at time 10000. -/
def c6stale : FileRec := { data := [1, 1], mtime := 6399 }

/-- A file one second younger than a one-hour TTL at time 10000. -/
def c6fresh : FileRec := { data := [2, 2], mtime := 6401 }

/-- A two-file cache directory for the C6 witness. -/
def c6st : CacheState :=
  { fs := [(pys "a.jpg", c6stale), (pys "b.jpg", c6fresh)], db := none }

/-- Witness for C6: with a one-hour TTL at time 10000, the file of age TTL
plus one second is removed in the expiry phase and counted, the file of age
TTL minus one second survives, nothing is evicted for size under a
one-megabyte ceiling, and the final size is under the ceiling. -/
theorem C6_cleanup_two_phase_witness :
    ((c6st.fs.map Prod.fst).Nodup)
    ∧ (cleanupCache 10000 1 1 c6st).2.expired_removed = 1
    ∧ (cleanupPhase1 10000 1 c6st).1 = [(pys "b.jpg", c6fresh)]
    ∧ (cleanupCache 10000 1 1 c6st).2.size_limit_removed = 0
    ∧ sumSizes (cleanupCache 10000 1 1 c6st).1.fs ≤ 1 * 1024 * 1024 := by
  have h := C6_cleanup_two_phase 10000 1 1 c6st (by decide)
  refine ⟨by decide, ?_, ?_, ?_, h.2.2.2.2⟩
  · rw [h.1]
    decide
  · rw [h.2.1]
    decide
  · rw [h.2.2.2.1]
    decide
